import Mathlib

/-!
Verification of the load-balancer health-gating core of the `bfab` deployment
task library (`src/bfab/__init__.py`): the health target conditions, the host
membership matcher, the inventory caches and the wait loop.

Python code is shallowly embedded: fallible expressions (list indexing that can
raise `IndexError`, flag parsing that can raise `ValueError`) return `Except`,
Python truthiness of lists is made explicit, and the mutable process-wide cache
`api.env` becomes an explicit `Env` value threaded through the cache helpers.
-/

namespace BFab

/-- One health record returned by `lb.get_instance_health([instance.id])`;
only its `state` field is consulted by the wait conditions. -/
structure HealthRec where
  state : String
deriving DecidableEq

/-- The target condition of `wait_in_lbs` (src/bfab/__init__.py lines 584-588),
translated with Python short-circuiting made explicit:
`not states and states[0].state == 'InService'`.
If `states` is non-empty, `not states` is falsy and the conjunction
short-circuits to `False`; if `states` is empty, `states[0]` is evaluated and
raises `IndexError`, modelled as `Except.error`. -/
def in_service (states : List HealthRec) : Except String Bool :=
  if states.isEmpty then
    match states.head? with
    | none => Except.error "IndexError"
    | some r => Except.ok (r.state == "InService")
  else
    Except.ok false

/-- The target condition of `wait_out_lbs` (src/bfab/__init__.py lines 594-598):
`not states or states[0].state == 'OutOfService'`.
If `states` is empty, `not states` is truthy and the disjunction
short-circuits to `True`; otherwise `states[0]` is evaluated (safely, since the
list is non-empty). -/
def out_of_service (states : List HealthRec) : Except String Bool :=
  if states.isEmpty then
    Except.ok true
  else
    match states.head? with
    | none => Except.error "IndexError"
    | some r => Except.ok (r.state == "OutOfService")

/-- C1: the claim says `in_service` is satisfied exactly on a non-empty health
sequence whose first state is `InService`.  The code diverges on both sides:
on `[{state := 'InService'}]` the predicate short-circuits to `False`, and on
the empty sequence it raises `IndexError`; so the written predicate is
satisfiable nowhere, contradicting the documented intent. -/
theorem in_service_code_bug :
    in_service [HealthRec.mk "InService"] = Except.ok false ∧
    in_service [] = Except.error "IndexError" := by
  exact ⟨rfl, rfl⟩

/-- C2: the claim says both conditions are total on the empty sequence, with
`out_of_service` satisfied and `in_service` returning false.  On the code,
`out_of_service []` is indeed satisfied, but `in_service []` raises
`IndexError` instead of returning false. -/
theorem empty_health_asymmetry_code_bug :
    out_of_service [] = Except.ok true ∧
    in_service [] = Except.error "IndexError" := by
  exact ⟨rfl, rfl⟩

/-- C7: `out_of_service` never raises, and it is satisfied exactly when the
health sequence is empty or its first entry's state equals `OutOfService`. -/
theorem out_of_service_iff (states : List HealthRec) :
    (∃ b, out_of_service states = Except.ok b) ∧
    (out_of_service states = Except.ok true ↔
      states = [] ∨ ∃ r rest, states = r :: rest ∧ r.state = "OutOfService") := by
  cases states with
  | nil => exact ⟨⟨true, rfl⟩, by simp [out_of_service]⟩
  | cons r rest =>
    refine ⟨⟨r.state == "OutOfService", rfl⟩, ?_⟩
    simp [out_of_service]

/-- An EC2 instance as consumed by the matcher and the inventory filters: its
id, private address, tag dictionary (modelled as an association list) and
subnet id. -/
structure Instance where
  id : String
  private_ip_address : String
  tags : List (String × String)
  subnet_id : String
deriving DecidableEq

/-- Python `d.get(key)` / `d[key]` guarded by `key in d`, on a tag dictionary
modelled as an association list. -/
def tagsGet (tags : List (String × String)) (key : String) : Option String :=
  (tags.find? (fun p => p.1 == key)).map (fun p => p.2)

/-- Python `a.startswith(b)`: `b` is a prefix of `a`. -/
def py_startswith (a b : String) : Bool := b.data.isPrefixOf a.data

/-- Python `needle in hay` on strings: `needle` occurs as a contiguous
substring of `hay`. -/
def py_in (needle hay : String) : Bool :=
  hay.data.tails.any (fun t => needle.data.isPrefixOf t)

/-- Python `s.replace('.', '-')`: a single-character replace is a character
map. -/
def py_dashed (s : String) : String :=
  String.mk (s.data.map (fun c => if c = '.' then '-' else c))

/-- The per-instance match test of `current_instance` (src/bfab/__init__.py
lines 571-577), conditions in the code's order:
`'Name' in i.tags and i.tags['Name'].startswith(host_string)`, then
`i.private_ip_address.startswith(host_string)`, then
`i.private_ip_address.replace('.', '-') in host_string`. -/
def host_matches (host_string : String) (i : Instance) : Bool :=
  (match tagsGet i.tags "Name" with
   | some name => py_startswith name host_string
   | none => false) ||
  py_startswith i.private_ip_address host_string ||
  py_in (py_dashed i.private_ip_address) host_string

/-- `current_instance` (src lines 567-580): the `for ... else` loop returns the
first cached instance passing `host_matches`, else `None`. -/
def current_instance (instances : List Instance) (host_string : String) :
    Option Instance :=
  instances.find? (host_matches host_string)

/-- The match test as claim C3 words it, with the prefix directions as written
there: the Name tag is a prefix of the identifying string, the private address
is a prefix of the identifying string, or the dashed private address is a
substring of it. -/
def host_matches_claim (host_string : String) (i : Instance) : Bool :=
  (match tagsGet i.tags "Name" with
   | some name => py_startswith host_string name
   | none => false) ||
  py_startswith host_string i.private_ip_address ||
  py_in (py_dashed i.private_ip_address) host_string

/-- `current_instance` as claim C3 describes it. -/
def current_instance_claim (instances : List Instance) (host_string : String) :
    Option Instance :=
  instances.find? (host_matches_claim host_string)

/-- A concrete instance whose Name tag `ab` is a strict prefix of the
identifying string `abc`. -/
def ceInstance : Instance := Instance.mk "i-1" "9.9.9.9" [("Name", "ab")] "sn-1"

/-- C3 counterexample: on an instance with Name tag `ab` and identifying string
`abc`, the claim's reading (tag is a prefix of the identifying string) selects
the instance, but the code tests the opposite direction
(`i.tags['Name'].startswith(host_string)`, i.e. the identifying string is a
prefix of the tag) and returns `None`. -/
theorem current_instance_direction_counterexample :
    current_instance [ceInstance] "abc" = none ∧
    current_instance_claim [ceInstance] "abc" = some ceInstance := by
  exact ⟨rfl, rfl⟩

/-- The amended per-instance condition, stated declaratively with the prefix
directions the code actually implements: there is a Name tag of which the
identifying string is a prefix, or the identifying string is a prefix of the
private address, or the private address with every `.` replaced by `-` occurs
as a substring of the identifying string. -/
def MatchesHost (host_string : String) (i : Instance) : Prop :=
  (∃ name, tagsGet i.tags "Name" = some name ∧ host_string.data <+: name.data) ∨
  host_string.data <+: i.private_ip_address.data ∨
  (py_dashed i.private_ip_address).data <:+: host_string.data

theorem py_startswith_iff (a b : String) :
    py_startswith a b = true ↔ b.data <+: a.data := by
  unfold py_startswith
  exact List.isPrefixOf_iff_prefix

theorem py_in_iff (needle hay : String) :
    py_in needle hay = true ↔ needle.data <:+: hay.data := by
  unfold py_in
  rw [List.any_eq_true]
  constructor
  · rintro ⟨t, ht, hp⟩
    rw [List.isPrefixOf_iff_prefix] at hp
    rw [List.mem_tails] at ht
    exact List.infix_iff_prefix_suffix.mpr ⟨t, hp, ht⟩
  · intro h
    obtain ⟨t, hp, hs⟩ := List.infix_iff_prefix_suffix.mp h
    exact ⟨t, (List.mem_tails _ _).mpr hs, List.isPrefixOf_iff_prefix.mpr hp⟩

theorem host_matches_iff (host_string : String) (i : Instance) :
    host_matches host_string i = true ↔ MatchesHost host_string i := by
  unfold host_matches MatchesHost
  cases h : tagsGet i.tags "Name" with
  | none =>
    simp [h, py_startswith_iff, py_in_iff]
  | some name =>
    simp [h, py_startswith_iff, py_in_iff, or_assoc]

theorem find?_eq_some_split {α : Type} (p : α → Bool) (l : List α) (a : α) :
    l.find? p = some a ↔
      ∃ l₁ l₂, l = l₁ ++ a :: l₂ ∧ p a = true ∧ ∀ x ∈ l₁, p x = false := by
  induction l with
  | nil => simp
  | cons b t ih =>
    by_cases hb : p b = true
    · rw [List.find?_cons_of_pos _ hb]
      constructor
      · intro h
        injection h with h
        subst h
        exact ⟨[], t, rfl, hb, by simp⟩
      · rintro ⟨l₁, l₂, heq, hpa, hall⟩
        cases l₁ with
        | nil =>
          simp only [List.nil_append, List.cons.injEq] at heq
          rw [heq.1]
        | cons c l₁ =>
          simp only [List.cons_append, List.cons.injEq] at heq
          have := hall c (by simp)
          rw [← heq.1] at this
          rw [hb] at this
          exact absurd this (by simp)
    · rw [List.find?_cons_of_neg _ (by simpa using hb)]
      rw [ih]
      constructor
      · rintro ⟨l₁, l₂, heq, hpa, hall⟩
        refine ⟨b :: l₁, l₂, by rw [heq, List.cons_append], hpa, ?_⟩
        intro x hx
        rcases List.mem_cons.mp hx with hx | hx
        · subst hx
          exact Bool.not_eq_true _ ▸ (by simpa using hb)
        · exact hall x hx
      · rintro ⟨l₁, l₂, heq, hpa, hall⟩
        cases l₁ with
        | nil =>
          simp only [List.nil_append, List.cons.injEq] at heq
          rw [heq.1] at hb
          exact absurd hpa hb
        | cons c l₁ =>
          simp only [List.cons_append, List.cons.injEq] at heq
          exact ⟨l₁, l₂, heq.2, hpa, fun x hx => hall x (by simp [hx])⟩

/-- C3 amended: `current_instance` returns the first cached instance for which,
with the prefix directions the code implements, the identifying string is a
prefix of the Name tag, or the identifying string is a prefix of the private
address, or the dashed private address is a substring of the identifying
string; it returns `none` exactly when no cached instance satisfies this. -/
theorem current_instance_amended (instances : List Instance)
    (host_string : String) :
    (∀ i, current_instance instances host_string = some i ↔
      ∃ pre post, instances = pre ++ i :: post ∧ MatchesHost host_string i ∧
        ∀ j ∈ pre, ¬ MatchesHost host_string j) ∧
    (current_instance instances host_string = none ↔
      ∀ i ∈ instances, ¬ MatchesHost host_string i) := by
  constructor
  · intro i
    rw [current_instance, find?_eq_some_split]
    constructor
    · rintro ⟨l₁, l₂, heq, hpa, hall⟩
      refine ⟨l₁, l₂, heq, (host_matches_iff _ _).mp hpa, ?_⟩
      intro j hj hm
      have := hall j hj
      rw [(host_matches_iff _ _).mpr hm] at this
      exact absurd this (by simp)
    · rintro ⟨l₁, l₂, heq, hpa, hall⟩
      refine ⟨l₁, l₂, heq, (host_matches_iff _ _).mpr hpa, ?_⟩
      intro j hj
      have := hall j hj
      cases hmj : host_matches host_string j with
      | false => rfl
      | true => exact absurd ((host_matches_iff _ _).mp hmj) this
  · rw [current_instance, List.find?_eq_none]
    constructor
    · intro h i hi hm
      have := h i hi
      exact this ((host_matches_iff _ _).mpr hm)
    · intro h i hi hm
      exact h i hi ((host_matches_iff _ _).mp hm)

/-- Witness for the amended C3 theorem at a concrete input: identifying string
`a` is a prefix of the Name tag `ab`, so the instance is returned. -/
theorem current_instance_amended_witness :
    current_instance [ceInstance] "a" = some ceInstance := by
  refine ((current_instance_amended [ceInstance] "a").1 ceInstance).mpr ?_
  refine ⟨[], [], rfl, Or.inl ⟨"ab", rfl, by decide⟩, by simp⟩

/-- The whitespace characters Python 2's `int()` strips around a numeric
string. -/
def pyIsSpace (c : Char) : Bool :=
  c == ' ' || c == '\t' || c == '\n' || c == '\r' || c == '\x0b' || c == '\x0c'

/-- Numeric value of a string of decimal digits. -/
def digitsVal (cs : List Char) : Nat :=
  cs.foldl (fun a c => a * 10 + (c.toNat - 48)) 0

/-- Python 2 `int(raw)` on a string: optional surrounding whitespace, an
optional single sign, then one or more decimal digits; `none` models the
`ValueError` raised on any other shape. -/
def pyInt (s : String) : Option Int :=
  let cs := ((s.data.dropWhile pyIsSpace).reverse.dropWhile pyIsSpace).reverse
  match cs with
  | [] => none
  | c :: rest =>
    let sign : Int := if c == '-' then -1 else 1
    let digits := if c == '-' || c == '+' then rest else c :: rest
    if digits.isEmpty then none
    else if digits.all Char.isDigit then some (sign * (digitsVal digits : Int))
    else none

/-- Python `s.lower()` (ASCII, per the C locale). -/
def py_lower (s : String) : String := String.mk (s.data.map Char.toLower)

/-- `parse_flag` (src/bfab/__init__.py lines 480-485): membership of the
lowercased flag in `(True, 1, '1', 't', 'true')` and
`(False, 0, '0', 'f', 'false')`; a string never equals the non-string members
of those tuples, so only the string literals can match. -/
def parse_flag (flag : String) : Except String Bool :=
  if py_lower flag == "1" || py_lower flag == "t" || py_lower flag == "true" then
    Except.ok true
  else if py_lower flag == "0" || py_lower flag == "f" || py_lower flag == "false" then
    Except.ok false
  else
    Except.error "Invalid flag value"

def WAIT_DEFAULT_TIMEOUT_SECS : Int := 60

/-- `parse_wait` (src lines 488-495): try `int(raw)` first; on failure fall
back to `parse_flag`, mapping a true flag to the default timeout and a false
flag to 0. -/
def parse_wait (raw : String) : Except String Int :=
  match pyInt raw with
  | some n => Except.ok n
  | none =>
    match parse_flag raw with
    | Except.ok true => Except.ok WAIT_DEFAULT_TIMEOUT_SECS
    | Except.ok false => Except.ok 0
    | Except.error e => Except.error e

/-- A true-flag literal as claim C10 words it (case-insensitive). -/
def IsTrueLiteral (raw : String) : Prop :=
  py_lower raw = "1" ∨ py_lower raw = "t" ∨ py_lower raw = "true"

/-- A false-flag literal as claim C10 words it (case-insensitive). -/
def IsFalseLiteral (raw : String) : Prop :=
  py_lower raw = "0" ∨ py_lower raw = "f" ∨ py_lower raw = "false"

/-- C10: `parse_wait` returns `int(raw)` whenever `raw` parses as an integer
(so numeric strings are second counts, never flags); otherwise it returns the
60-second default on a true-flag literal, 0 on a false-flag literal, and an
error on any other string. -/
theorem parse_wait_spec (raw : String) :
    (∀ n, pyInt raw = some n → parse_wait raw = Except.ok n) ∧
    (pyInt raw = none → IsTrueLiteral raw → parse_wait raw = Except.ok 60) ∧
    (pyInt raw = none → IsFalseLiteral raw → parse_wait raw = Except.ok 0) ∧
    (pyInt raw = none → ¬ IsTrueLiteral raw → ¬ IsFalseLiteral raw →
      ∃ e, parse_wait raw = Except.error e) := by
  refine ⟨?_, ?_, ?_, ?_⟩
  · intro n h
    simp [parse_wait, h]
  · intro h ht
    rcases ht with h1 | h1 | h1 <;>
      simp [parse_wait, parse_flag, h, h1, WAIT_DEFAULT_TIMEOUT_SECS]
  · intro h hf
    rcases hf with h1 | h1 | h1 <;>
      simp [parse_wait, parse_flag, h, h1]
  · intro h ht hf
    simp only [IsTrueLiteral, not_or] at ht
    simp only [IsFalseLiteral, not_or] at hf
    obtain ⟨t1, t2, t3⟩ := ht
    obtain ⟨f1, f2, f3⟩ := hf
    refine ⟨"Invalid flag value", ?_⟩
    simp [parse_wait, parse_flag, h, t1, t2, t3, f1, f2, f3]

/-- Witness for C10 at concrete inputs: `'5'` is a second count, `'t'` maps to
the 60-second default. -/
theorem parse_wait_spec_witness :
    parse_wait "5" = Except.ok 5 ∧ parse_wait "t" = Except.ok 60 := by
  constructor
  · exact (parse_wait_spec "5").1 5 (by decide)
  · exact (parse_wait_spec "t").2.1 (by decide) (Or.inr (Or.inl (by decide)))

/-- A load balancer with its member instance ids (boto's `lb.instances`,
already known non-null). -/
structure LB where
  name : String
  members : List String
deriving DecidableEq

/-- A load balancer as returned by the provider, whose member list may still
be null (`lb.instances is None` for LBs mid-provisioning). -/
structure RawLB where
  name : String
  members : Option (List String)
deriving DecidableEq

/-- The mutable cache fields of `api.env`: `api.env.instances` and
`api.env.lbs`, both initialised to `None`. -/
structure Env where
  instances : Option (List Instance)
  lbs : Option (List LB)
deriving DecidableEq

def AWS_DISABLED_TAG : String := "Disabled"

/-- `local_filter` inside `populate_instances` (src lines 506-513): drop
instances outside a truthy (non-empty) subnet list, drop instances carrying
the disabled tag, and when a load balancer is supplied keep only its
members. -/
def local_filter (lb : Option LB) (subenets : List String) (inst : Instance) :
    Bool :=
  if !subenets.isEmpty && !(subenets.contains inst.subnet_id) then false
  else if (tagsGet inst.tags AWS_DISABLED_TAG).isSome then false
  else
    match lb with
    | some l => l.members.any (fun mid => inst.id == mid)
    | none => true

/-- The provider query and cache update of `populate_instances` (src lines
516-531): filter the provider response locally, store the result in the
cache, and record that the provider was queried. -/
def query_instances (env : Env) (provider : List Instance) (lb : Option LB)
    (subenets : List String) : List Instance × Env × Bool :=
  (provider.filter (local_filter lb subenets),
   Env.mk (some (provider.filter (local_filter lb subenets))) env.lbs,
   true)

/-- `populate_instances` (src lines 500-531).  The cache gate is Python
truthiness (`if api.env.instances:`), so the cached list is returned only when
it is non-`None` and non-empty.  `provider` stands for the provider's response
to the remote-filtered query; the third component records whether the provider
was queried.  The `exclude_disabled` parameter is accepted, as in the source,
but never read by the body. -/
def populate_instances (env : Env) (provider : List Instance) (lb : Option LB)
    (exclude_disabled : Bool) (subenets : List String) :
    List Instance × Env × Bool :=
  match env.instances with
  | some cached =>
    if !cached.isEmpty then (cached, env, false)
    else query_instances env provider lb subenets
  | none => query_instances env provider lb subenets

/-- `populate_lbs` (src lines 534-542).  The cache gate is
`if api.env.lbs is not None`, so any cached list, empty included, is returned
without a query; on a miss, provider LBs with a null member list are dropped
and the rest cached. -/
def populate_lbs (env : Env) (provider : List RawLB) : List LB × Env × Bool :=
  match env.lbs with
  | some cached => (cached, env, false)
  | none =>
    (provider.filterMap (fun r => r.members.map (fun ms => LB.mk r.name ms)),
     Env.mk env.instances
       (some (provider.filterMap (fun r => r.members.map (fun ms => LB.mk r.name ms)))),
     true)

/-- A concrete instance carrying the disabled tag and passing every other
filter. -/
def disabledInstance : Instance :=
  Instance.mk "i-d" "10.0.0.1" [("Disabled", "1")] "sn-1"

/-- C5: the claim says `exclude_disabled=false` lets a disabled-tagged
instance through, but the code never reads the parameter: with
`exclude_disabled := false` and no other filters the disabled instance is
still dropped, and the parameter provably has no effect at all. -/
theorem exclude_disabled_ignored_code_bug :
    (populate_instances (Env.mk none none) [disabledInstance] none false []).1 = [] ∧
    ∀ env provider lb subenets,
      populate_instances env provider lb false subenets =
        populate_instances env provider lb true subenets := by
  exact ⟨rfl, fun _ _ _ _ => rfl⟩

/-- C6 counterexample: a first completed `populate_instances` call with an
empty provider response caches the empty snapshot, yet the very next call
queries the provider again (the cache gate is truthiness, not `is not None`),
so the "never re-queries, whatever the cached contents" claim fails. -/
theorem instances_cache_requery_counterexample :
    (populate_instances (Env.mk none none) [] none true []).2.1 =
      Env.mk (some []) none ∧
    (populate_instances (Env.mk (some []) none) [] none true []).2.2 = true := by
  exact ⟨rfl, rfl⟩

/-- C6 amended: the LB cache is populated at most once — any cached list,
empty included, is returned unchanged without a provider query; the instance
cache behaves so only for a non-empty cached snapshot (an empty cached
instance list triggers a re-query). -/
theorem caches_memoized_amended :
    (∀ env provider lb ex subenets cached,
      env.instances = some cached → cached ≠ [] →
      populate_instances env provider lb ex subenets = (cached, env, false)) ∧
    (∀ env provider cached, env.lbs = some cached →
      populate_lbs env provider = (cached, env, false)) := by
  constructor
  · intro env provider lb ex subenets cached h hne
    simp [populate_instances, h, hne]
  · intro env provider cached h
    simp [populate_lbs, h]

/-- Witness for the amended C6 theorem: a non-empty cached instance snapshot
and an empty cached LB snapshot are both served from the cache. -/
theorem caches_memoized_amended_witness :
    populate_instances (Env.mk (some [disabledInstance]) none) [] none true [] =
      ([disabledInstance], Env.mk (some [disabledInstance]) none, false) ∧
    populate_lbs (Env.mk none (some [])) [] = ([], Env.mk none (some []), false) := by
  constructor
  · exact caches_memoized_amended.1 _ [] none true [] [disabledInstance] rfl (by simp)
  · exact caches_memoized_amended.2 _ [] [] rfl

/-- `instance_lbs` (src lines 560-564): the load balancers whose member list
contains the instance's id. -/
def instance_lbs (lbs : List LB) (inst : Instance) : List LB :=
  lbs.filter (fun lb => lb.members.any (fun mid => inst.id == mid))

/-- Outcome of a wait loop: success, or the timeout exception carrying the
names of the still-unsatisfied load balancers. -/
inductive WaitRes where
  | success : WaitRes
  | timedOut : List String → WaitRes
deriving DecidableEq

/-- Observable trace of one wait invocation: its outcome, the log of health
queries as `(cycle, lb name)` pairs in order, and the number of sleeps
executed. -/
structure WaitTrace where
  res : WaitRes
  polls : List (Nat × String)
  sleeps : Nat
deriving DecidableEq

/-- The `while True` loop of `wait_xx_lbs` (src lines 609-630), fuelled.
`cond cycle name` abstracts `health(lb.get_instance_health([instance.id]))`
for the load balancer called `name` on poll cycle `cycle`; `clock i` is the
value returned by the `i`-th call to `time.time()` (call 0 computed the
deadline); `none` means the fuel ran out before the loop terminated.  Each
iteration polls every still-active LB (the list comprehension calls the
health condition on each), drops the satisfied ones, then breaks on an empty
active set, raises once past the deadline, and otherwise sleeps. -/
def waitAux (cond : Nat → String → Bool) (clock : Nat → Int) (et : Int) :
    Nat → List LB → Nat → List (Nat × String) → Nat → Option WaitTrace
  | 0, _, _, _, _ => none
  | fuel + 1, lbs, cycle, polls, sleeps =>
    if (lbs.filter (fun lb => !cond cycle lb.name)).isEmpty then
      some (WaitTrace.mk WaitRes.success
        (polls ++ lbs.map (fun lb => (cycle, lb.name))) sleeps)
    else if clock (cycle + 1) > et then
      some (WaitTrace.mk
        (WaitRes.timedOut ((lbs.filter (fun lb => !cond cycle lb.name)).map LB.name))
        (polls ++ lbs.map (fun lb => (cycle, lb.name))) sleeps)
    else
      waitAux cond clock et fuel (lbs.filter (fun lb => !cond cycle lb.name))
        (cycle + 1) (polls ++ lbs.map (fun lb => (cycle, lb.name))) (sleeps + 1)

/-- `wait_xx_lbs` (src lines 603-630): identify the current instance (no-op
success when absent), compute its LBs and the deadline
`et = time.time() + timeout`, then run the poll loop. -/
def wait_xx_lbs (timeout : Int) (cond : Nat → String → Bool) (clock : Nat → Int)
    (instances : List Instance) (host_string : String) (all_lbs : List LB)
    (fuel : Nat) : Option WaitTrace :=
  match current_instance instances host_string with
  | none => some (WaitTrace.mk WaitRes.success [] 0)
  | some inst =>
    waitAux cond clock (clock 0 + timeout) fuel (instance_lbs all_lbs inst) 0 [] 0

/-- C8: when the matcher finds no instance, the wait loop returns success with
no health queries and no sleeps, for every timeout, condition, clock and
fuel. -/
theorem wait_noop_when_unidentified (timeout : Int) (cond : Nat → String → Bool)
    (clock : Nat → Int) (instances : List Instance) (host_string : String)
    (all_lbs : List LB) (fuel : Nat)
    (h : current_instance instances host_string = none) :
    wait_xx_lbs timeout cond clock instances host_string all_lbs fuel =
      some (WaitTrace.mk WaitRes.success [] 0) := by
  simp [wait_xx_lbs, h]

/-- An instance of one load balancer, for the closed wait-loop runs. -/
def wInstance : Instance := Instance.mk "i-1" "10.0.0.1" [("Name", "web-1")] "sn-1"

/-- The load balancer `wInstance` belongs to. -/
def wLB : LB := LB.mk "lb1" ["i-1"]

/-- Witness for C8: no cached instance matches, so the loop is a no-op
success. -/
theorem wait_noop_when_unidentified_witness :
    wait_xx_lbs 7 (fun _ _ => false) (fun n => (n : Int)) [] "web-1" [wLB] 3 =
      some (WaitTrace.mk WaitRes.success [] 0) :=
  wait_noop_when_unidentified 7 (fun _ _ => false) (fun n => (n : Int)) [] "web-1"
    [wLB] 3 (by decide)

/-- C4: with `timeout = 0`, an identified instance, at least one of its load
balancers unsatisfied on the first poll, and a clock that has advanced at all
by the deadline check, the loop raises the timeout at once: outcome
`timedOut` with zero sleeps after exactly one poll round. -/
theorem wait_timeout_zero_immediate (cond : Nat → String → Bool)
    (clock : Nat → Int) (instances : List Instance) (host_string : String)
    (all_lbs : List LB) (fuel : Nat) (inst : Instance)
    (hfind : current_instance instances host_string = some inst)
    (hclock : clock 0 < clock 1)
    (hunsat : (instance_lbs all_lbs inst).filter (fun lb => !cond 0 lb.name) ≠ []) :
    wait_xx_lbs 0 cond clock instances host_string all_lbs (fuel + 1) =
      some (WaitTrace.mk
        (WaitRes.timedOut
          (((instance_lbs all_lbs inst).filter (fun lb => !cond 0 lb.name)).map LB.name))
        ((instance_lbs all_lbs inst).map (fun lb => (0, lb.name)))
        0) := by
  simp only [wait_xx_lbs, hfind]
  rw [waitAux]
  rw [if_neg (by simpa [List.isEmpty_iff] using hunsat)]
  rw [if_pos (by simpa using hclock)]
  rw [List.nil_append]

/-- Witness for C4: the condition never holds, the clock ticks once, and the
zero-timeout run times out with no sleep. -/
theorem wait_timeout_zero_immediate_witness :
    wait_xx_lbs 0 (fun _ _ => false) (fun n => (n : Int)) [wInstance] "10.0.0.1"
      [wLB] 1 =
      some (WaitTrace.mk (WaitRes.timedOut ["lb1"]) [(0, "lb1")] 0) := by
  have h := wait_timeout_zero_immediate (fun _ _ => false) (fun n => (n : Int))
    [wInstance] "10.0.0.1" [wLB] 0 wInstance (by decide) (by decide) (by decide)
  exact h

/-- One poll round preserves the no-repoll property of the log: used both when
the loop stops after the round and when it recurses. -/
theorem polls_round_invariant (cond : Nat → String → Bool) (lbs : List LB)
    (cycle : Nat) (polls : List (Nat × String))
    (H2 : ∀ lb ∈ lbs, ∀ c, c < cycle → (c, lb.name) ∈ polls ∧ cond c lb.name = false)
    (H3 : ∀ c c' s, (c', s) ∈ polls → c < c' → (c, s) ∈ polls ∧ cond c s = false) :
    ∀ c c' s, (c', s) ∈ polls ++ lbs.map (fun lb => (cycle, lb.name)) → c < c' →
      ((c, s) ∈ polls ++ lbs.map (fun lb => (cycle, lb.name)) ∧
        cond c s = false) := by
  intro c c' s hmem hlt
  rcases List.mem_append.mp hmem with hm | hm
  · obtain ⟨h1, h2⟩ := H3 c c' s hm hlt
    exact ⟨List.mem_append_left _ h1, h2⟩
  · obtain ⟨lb, hlb, heq⟩ := List.mem_map.mp hm
    obtain ⟨rfl, rfl⟩ : cycle = c' ∧ lb.name = s := by
      refine ⟨congrArg Prod.fst heq, congrArg Prod.snd heq⟩
    obtain ⟨h1, h2⟩ := H2 lb hlb c hlt
    exact ⟨List.mem_append_left _ h1, h2⟩

/-- Induction on fuel: any completed `waitAux` run whose starting log already
satisfies the invariants produces a log in which a poll at a later cycle
implies an unsatisfied poll at every earlier cycle. -/
theorem waitAux_no_repoll (cond : Nat → String → Bool) (clock : Nat → Int)
    (et : Int) :
    ∀ (fuel : Nat) (lbs : List LB) (cycle : Nat) (polls : List (Nat × String))
      (sleeps : Nat) (tr : WaitTrace),
      waitAux cond clock et fuel lbs cycle polls sleeps = some tr →
      (∀ p ∈ polls, p.1 < cycle) →
      (∀ lb ∈ lbs, ∀ c, c < cycle → (c, lb.name) ∈ polls ∧ cond c lb.name = false) →
      (∀ c c' s, (c', s) ∈ polls → c < c' → (c, s) ∈ polls ∧ cond c s = false) →
      ∀ c c' s, (c', s) ∈ tr.polls → c < c' →
        ((c, s) ∈ tr.polls ∧ cond c s = false) := by
  intro fuel
  induction fuel with
  | zero =>
    intro lbs cycle polls sleeps tr h
    exact absurd h (by simp [waitAux])
  | succ n ih =>
    intro lbs cycle polls sleeps tr h H1 H2 H3
    rw [waitAux] at h
    by_cases he : (lbs.filter (fun lb => !cond cycle lb.name)).isEmpty = true
    · rw [if_pos he] at h
      injection h with h
      subst h
      exact polls_round_invariant cond lbs cycle polls H2 H3
    · rw [if_neg he] at h
      by_cases ht : clock (cycle + 1) > et
      · rw [if_pos ht] at h
        injection h with h
        subst h
        exact polls_round_invariant cond lbs cycle polls H2 H3
      · rw [if_neg ht] at h
        refine ih _ _ _ _ _ h ?_ ?_ ?_
        · intro p hp
          rcases List.mem_append.mp hp with hm | hm
          · exact Nat.lt_succ_of_lt (H1 p hm)
          · obtain ⟨lb, hlb, heq⟩ := List.mem_map.mp hm
            rw [← heq]
            exact Nat.lt_succ_self cycle
        · intro lb hlb c hc
          have hlb' := List.mem_filter.mp hlb
          have hcond : cond cycle lb.name = false := by
            simpa using hlb'.2
          by_cases hceq : c = cycle
          · subst hceq
            refine ⟨List.mem_append_right _ ?_, hcond⟩
            exact List.mem_map.mpr ⟨lb, hlb'.1, rfl⟩
          · have hclt : c < cycle := by omega
            obtain ⟨h1, h2⟩ := H2 lb hlb'.1 c hclt
            exact ⟨List.mem_append_left _ h1, h2⟩
        · exact polls_round_invariant cond lbs cycle polls H2 H3

/-- C9: in any completed wait invocation, a load balancer polled on a cycle
was polled on every earlier cycle with its condition unsatisfied there; in
particular, once its condition holds on some cycle it is never polled again
in that invocation, and the active set never grows between cycles. -/
theorem wait_no_repoll_after_satisfied (timeout : Int)
    (cond : Nat → String → Bool) (clock : Nat → Int) (instances : List Instance)
    (host_string : String) (all_lbs : List LB) (fuel : Nat) (tr : WaitTrace)
    (h : wait_xx_lbs timeout cond clock instances host_string all_lbs fuel = some tr) :
    ∀ c c' s, (c', s) ∈ tr.polls → c < c' →
      ((c, s) ∈ tr.polls ∧ cond c s = false) := by
  cases hc : current_instance instances host_string with
  | none =>
    simp only [wait_xx_lbs, hc] at h
    injection h with h
    subst h
    intro c c' s hm
    exact absurd hm (by simp)
  | some inst =>
    simp only [wait_xx_lbs, hc] at h
    refine waitAux_no_repoll cond clock (clock 0 + timeout) fuel
      (instance_lbs all_lbs inst) 0 [] 0 tr h ?_ ?_ ?_
    · intro p hp
      exact absurd hp (by simp)
    · intro lb _ c hc0
      exact absurd hc0 (Nat.not_lt_zero c)
    · intro c c' s hm
      exact absurd hm (by simp)

/-- Witness for C9 on a concrete two-cycle run: the LB satisfied on cycle 1
was polled on cycle 0, where its condition was still false. -/
theorem wait_no_repoll_after_satisfied_witness :
    ((0, "lb1") ∈ [((0 : Nat), ("lb1" : String)), (1, "lb1")] ∧
      (fun c (_ : String) => decide (0 < c)) 0 "lb1" = false) := by
  have h := wait_no_repoll_after_satisfied 100 (fun c _ => decide (0 < c))
    (fun _ => (0 : Int)) [wInstance] "10.0.0.1" [wLB] 3
    (WaitTrace.mk WaitRes.success [(0, "lb1"), (1, "lb1")] 1)
    (by decide) 0 1 "lb1" (by decide) (by decide)
  exact h

end BFab
